import Mathlib

/-!
Verification of the access-control layer of python-opsi.

The definitions below are a shallow embedding of
`OPSI/Backend/Manager/AccessControl.py` (class `BackendAccessControl`:
predicate helpers, `_executeMethodProtected`, `_filterParams`,
`_filterResult`, `_filterObjects`, and the opsi-hostkey branch of
`authenticate`) and of `BackendACLFile.parse` from
`OPSI/Util/File/Opsi/__init__.py`.

Python dictionaries are embedded as association lists (insertion order,
unique keys by construction of the operations used), Python regex
patterns for method names as boolean predicates on strings, Python
exceptions as explicit error values, and the truthiness tests the code
performs on strings and lists as emptiness tests.
-/

namespace PyOpsi

/-- The six ACL entry kinds produced by `BackendACLFile.parse`
(`all`, `self`, `opsi_depotserver`, `opsi_client`, `sys_group`, `sys_user`). -/
inductive AclType where
  | all
  | self_
  | opsi_depotserver
  | opsi_client
  | sys_group
  | sys_user
deriving DecidableEq

/-- One parsed ACL entry: the dict
`{'type': ..., 'ids': [...], 'allowAttributes': [...], 'denyAttributes': [...]}`
built by `BackendACLFile.parse`. All four keys are always present. -/
structure AclEntry where
  type : AclType
  ids : List String
  allowAttributes : List String
  denyAttributes : List String
deriving DecidableEq

/-- The dynamic class of a host object bound to the session
(`isinstance` checks against `OpsiClient` / `OpsiDepotserver`). -/
inductive HostKind where
  | opsiClient
  | opsiDepotserver
  | otherHost
deriving DecidableEq

/-- A host record as used by the opsi-hostkey authentication:
its `id`, its stored `opsiHostKey` (`none` models Python `None`),
and its dynamic class. -/
structure Host where
  id : String
  opsiHostKey : Option String
  kind : HostKind
deriving DecidableEq

/-- The `UserStore` object of `AccessControl.py`: per-session principal
state mutated by `authenticate` and read by the predicate helpers. -/
structure UserStore where
  username : String
  password : String
  userGroups : List String
  host : Option Host
  authenticated : Bool
  isAdmin : Bool
  isReadOnly : Bool
deriving DecidableEq

/-- `BackendAccessControl._isMemberOfGroup`: some group id is among the
principal's groups. -/
def isMemberOfGroup (u : UserStore) (ids : List String) : Bool :=
  ids.any fun groupId => u.userGroups.contains groupId

/-- `BackendAccessControl._isUser`: the principal's username is among the ids. -/
def isUser (u : UserStore) (ids : List String) : Bool :=
  ids.contains u.username

/-- `BackendAccessControl._isOpsiDepotserver`: the bound host exists, is an
`OpsiDepotserver`, and (when ids are given) its id is among them. -/
def isOpsiDepotserver (u : UserStore) (ids : List String) : Bool :=
  match u.host with
  | none => false
  | some h =>
    if h.kind ≠ HostKind.opsiDepotserver then false
    else if ids.isEmpty then true
    else ids.contains h.id

/-- `BackendAccessControl._isOpsiClient`: the bound host exists, is an
`OpsiClient`, and (when ids are given) its id is among them. -/
def isOpsiClient (u : UserStore) (ids : List String) : Bool :=
  match u.host with
  | none => false
  | some h =>
    if h.kind ≠ HostKind.opsiClient then false
    else if ids.isEmpty then true
    else ids.contains h.id

/-- The running value of the `granted` variable in
`_executeMethodProtected`: Python `False`, `True`, `'partial_object'`
or `'partial_attributes'`. -/
inductive RunningGrant where
  | notGranted
  | fullGrant
  | objGrant
  | attrGrant
deriving DecidableEq

/-- One iteration of the entry loop of `_executeMethodProtected`:
evaluate the entry's predicate (`none` models the `continue` on a false
predicate), then force `'partial_attributes'` when the entry carries a
non-empty `denyAttributes` or `allowAttributes` list. -/
def entryGrant (u : UserStore) (e : AclEntry) : Option RunningGrant :=
  let newGranted : Option RunningGrant :=
    match e.type with
    | AclType.all => some RunningGrant.fullGrant
    | AclType.opsi_depotserver =>
      if isOpsiDepotserver u e.ids then some RunningGrant.fullGrant else none
    | AclType.opsi_client =>
      if isOpsiClient u e.ids then some RunningGrant.fullGrant else none
    | AclType.sys_group =>
      if isMemberOfGroup u e.ids then some RunningGrant.fullGrant else none
    | AclType.sys_user =>
      if isUser u e.ids then some RunningGrant.fullGrant else none
    | AclType.self_ => some RunningGrant.objGrant
  match newGranted with
  | none => none
  | some g =>
    if ¬ e.denyAttributes.isEmpty ∨ ¬ e.allowAttributes.isEmpty then
      some RunningGrant.attrGrant
    else some g

/-- The entry loop of `_executeMethodProtected` over the winning pattern's
entry list: entries with a false predicate are skipped, every contributing
entry is appended to the accumulated `acls` list and overwrites the running
`granted` value, and the loop breaks as soon as `granted` is `True`. -/
def runEntries (u : UserStore) (granted : RunningGrant) :
    List AclEntry → RunningGrant × List AclEntry
  | [] => (granted, [])
  | e :: rest =>
    match entryGrant u e with
    | none => runEntries u granted rest
    | some g =>
      if g = RunningGrant.fullGrant then (g, [e])
      else
        let r := runEntries u g rest
        (r.1, e :: r.2)

/-- Entry processing with the initial `granted = False`. -/
def processEntries (u : UserStore) (entries : List AclEntry) :
    RunningGrant × List AclEntry :=
  runEntries u RunningGrant.notGranted entries

/-- The prefix of the entry list the loop actually scans: everything up to
and including the first entry whose (attribute-adjusted) grant is `True`. -/
def scannedEntries (u : UserStore) : List AclEntry → List AclEntry
  | [] => []
  | e :: rest =>
    if entryGrant u e = some RunningGrant.fullGrant then [e]
    else e :: scannedEntries u rest

/-- A compiled method-name pattern (`re.compile(...).search`), embedded as a
boolean predicate on method names. -/
abbrev MethodPattern := String → Bool

/-- The compiled rule set `self._acl`: patterns with their entry lists,
in file order. -/
abbrev RuleSet := List (MethodPattern × List AclEntry)

/-- The outer pattern loop of `_executeMethodProtected`: skip patterns that
do not match, process the first matching one and `break`. -/
def findMatchingAcl : RuleSet → String → Option (List AclEntry)
  | [], _ => none
  | (regex, acl) :: rest, methodName =>
    if regex methodName then some acl else findMatchingAcl rest methodName

/-- The error message of the `BackendPermissionDeniedError` raised when the
final `granted` is `False` (quotes of the original message omitted). -/
def deniedMessage (methodName username : String) : String :=
  "Access to method " ++ methodName ++ " denied for user " ++ username

/-- The decision `_executeMethodProtected` reaches before touching the
parameters: full access, denial, or attribute/object filtering with the
accumulated contributing entries. -/
inductive AccessDecision where
  | fullAccess
  | deniedAccess (msg : String)
  | filteredAccess (acls : List AclEntry)
deriving DecidableEq

/-- The decision for one matching pattern's entry list. -/
def aclDecision (u : UserStore) (methodName : String)
    (acl : List AclEntry) : AccessDecision :=
  match processEntries u acl with
  | (RunningGrant.fullGrant, _) => AccessDecision.fullAccess
  | (RunningGrant.notGranted, _) =>
    AccessDecision.deniedAccess (deniedMessage methodName u.username)
  | (_, acls) => AccessDecision.filteredAccess acls

/-- The grant decision of `_executeMethodProtected` for a method name:
only the first pattern whose regex matches is consulted; no match at all
leaves `granted = False` and denies the call. -/
def methodAccessDecision (u : UserStore) (rules : RuleSet)
    (methodName : String) : AccessDecision :=
  match findMatchingAcl rules methodName with
  | none => AccessDecision.deniedAccess (deniedMessage methodName u.username)
  | some acl => aclDecision u methodName acl

/-- A record's attribute hash (`objHash` in `_filterObjects`): a Python dict
embedded as an insertion-ordered association list with string values. -/
abbrev ObjHash := List (String × String)

/-- The class of a typed (`BaseObject`) record: its name and its
`mandatoryConstructorArgs` (constructor arguments without defaults, cf.
`mandatoryConstructorArgs` in `OPSI/Backend/Object.py`). -/
structure ObjClass where
  name : String
  mandatory : List String
deriving DecidableEq

/-- A record passed through the filter: either a plain dict or a typed
`BaseObject` whose `toHash()` is `attrs` (for `Entity` subclasses the hash
carries the kind tag under the `type` key, cf. `Entity.toHash` in
`OPSI/Backend/Object.py`). -/
inductive DataRec where
  | dictRec (attrs : ObjHash)
  | typedRec (cls : ObjClass) (attrs : ObjHash)
deriving DecidableEq

/-- The `objHash` the filter works on (`obj` itself for dicts,
`obj.toHash()` for typed records). -/
def DataRec.attrs : DataRec → ObjHash
  | DataRec.dictRec h => h
  | DataRec.typedRec _ h => h

/-- `isinstance(obj, dict)`. -/
def DataRec.isDict : DataRec → Bool
  | DataRec.dictRec _ => true
  | DataRec.typedRec _ _ => false

/-- `mandatoryConstructorArgs(obj.__class__)` (empty for dicts, unused there). -/
def DataRec.mandatoryOf : DataRec → List String
  | DataRec.dictRec _ => []
  | DataRec.typedRec cls _ => cls.mandatory

/-- Rebuild the record from a (filtered) hash: the dict itself, or
`obj.__class__.fromHash(objHash)` for typed records. -/
def DataRec.withAttrs : DataRec → ObjHash → DataRec
  | DataRec.dictRec _, h => DataRec.dictRec h
  | DataRec.typedRec cls _, h => DataRec.typedRec cls h

/-- The identifier scan order of the `self` check in `_filterObjects`. -/
def identityAttributes : List String :=
  ["id", "objectId", "hostId", "clientId", "depotId", "serverId"]

/-- The `objectId` found by the `self` check: the value of the first
identifier key present in the hash (the loop breaks on the first hit,
even when the stored value is empty). -/
def objectIdOf : List String → ObjHash → Option String
  | [], _ => none
  | ident :: rest, objHash =>
    match objHash.lookup ident with
    | some v => some v
    | none => objectIdOf rest objHash

/-- The attribute names one non-`self` branch of the entry loop of
`_filterObjects` adds to `allowedAttributes`: the `allowAttributes` list if
non-empty, else all hash keys outside `denyAttributes` if that is non-empty,
else all hash keys. -/
def nonSelfContribution (e : AclEntry) (objHash : ObjHash) : List String :=
  if ¬ e.allowAttributes.isEmpty then e.allowAttributes
  else if ¬ e.denyAttributes.isEmpty then
    (objHash.map Prod.fst).filter fun a => ¬ e.denyAttributes.contains a
  else objHash.map Prod.fst

/-- The contribution of one entry to `allowedAttributes`: a `self` entry
contributes nothing unless the record's `objectId` is truthy and equals the
principal's username. -/
def entryAllowedAttributes (username : String) (e : AclEntry)
    (objHash : ObjHash) : List String :=
  if e.type = AclType.self_ then
    match objectIdOf identityAttributes objHash with
    | none => []
    | some objectId =>
      if objectId = "" ∨ objectId ≠ username then []
      else nonSelfContribution e objHash
  else nonSelfContribution e objHash

/-- The `allowedAttributes` set accumulated over all contributing entries
(the Python set is used only through membership, so a concatenation of the
contributions embeds it). -/
def allowedAttributesFor (username : String) (acls : List AclEntry)
    (objHash : ObjHash) : List String :=
  (acls.map fun e => entryAllowedAttributes username e objHash).flatten

/-- The exceptions the filter functions can raise: wrapped
`BackendPermissionDeniedError`s and the raw `IndexError` of
`newObjects[0]` on an empty list. -/
inductive FilterError where
  | permissionDenied (msg : String)
  | indexError
deriving DecidableEq

/-- The per-record body of `_filterObjects`: compute `allowedAttributes`,
drop the record when it is empty, extend it with `type` and the mandatory
constructor arguments for typed records, then either raise on the first
attribute to remove (strict mode) or delete every key not allowed. -/
def filterOneObject (username : String) (acls : List AclEntry)
    (exceptionOnTruncate : Bool) (r : DataRec) :
    Except FilterError (Option DataRec) :=
  let objHash := r.attrs
  let allowedBase := allowedAttributesFor username acls objHash
  if allowedBase.isEmpty then Except.ok none
  else
    let allowed :=
      if r.isDict then allowedBase
      else "type" :: (r.mandatoryOf ++ allowedBase)
    match
      (if exceptionOnTruncate then
        (objHash.map Prod.fst).find? fun k => ¬ allowed.contains k
      else none) with
    | some key =>
      Except.error (FilterError.permissionDenied
        ("Access to attribute " ++ key ++ " denied"))
    | none =>
      Except.ok (some (r.withAttrs (objHash.filter fun kv => allowed.contains kv.1)))

/-- The record loop of `_filterObjects` building `newObjects` (an exception
raised for a record aborts the whole loop). -/
def filterObjectsLoop (username : String) (acls : List AclEntry)
    (exceptionOnTruncate : Bool) :
    List DataRec → Except FilterError (List DataRec)
  | [] => Except.ok []
  | r :: rest =>
    match filterOneObject username acls exceptionOnTruncate r with
    | Except.error e => Except.error e
    | Except.ok o =>
      match filterObjectsLoop username acls exceptionOnTruncate rest with
      | Except.error e => Except.error e
      | Except.ok tail =>
        match o with
        | none => Except.ok tail
        | some r2 => Except.ok (r2 :: tail)

/-- `_filterObjects` on a list input (`is_list` true): after the loop, raise
`Access denied` when everything was removed and `exceptionIfAllRemoved`
holds. -/
def filterObjectsList (username : String) (acls : List AclEntry)
    (objs : List DataRec) (exceptionOnTruncate exceptionIfAllRemoved : Bool) :
    Except FilterError (List DataRec) :=
  match filterObjectsLoop username acls exceptionOnTruncate objs with
  | Except.error e => Except.error e
  | Except.ok newObjects =>
    if newObjects.length < objs.length ∧ newObjects.isEmpty ∧
        exceptionIfAllRemoved then
      Except.error (FilterError.permissionDenied "Access denied")
    else Except.ok newObjects

/-- `_filterObjects` on a scalar input (`is_list` false, `forceList` wraps the
record): the final `newObjects[0]` raises a raw `IndexError` when the single
record was dropped and `exceptionIfAllRemoved` did not fire. -/
def filterObjectsScalar (username : String) (acls : List AclEntry)
    (r : DataRec) (exceptionOnTruncate exceptionIfAllRemoved : Bool) :
    Except FilterError DataRec :=
  match filterObjectsLoop username acls exceptionOnTruncate [r] with
  | Except.error e => Except.error e
  | Except.ok newObjects =>
    if newObjects.isEmpty ∧ exceptionIfAllRemoved then
      Except.error (FilterError.permissionDenied "Access denied")
    else
      match newObjects with
      | [] => Except.error FilterError.indexError
      | r2 :: _ => Except.ok r2

/-- A keyword-argument or result value as `_filterParams` / `_filterResult`
classify it: a Python list of records, a single record, or any other value
(embedded by a string; `forceList` wraps it in a singleton list whose head is
neither a dict nor a `BaseObject`, so it passes through untouched). -/
inductive ParamValue where
  | objList (l : List DataRec)
  | obj (r : DataRec)
  | other (s : String)
deriving DecidableEq

/-- `_filterParams`: record-valued arguments are rewritten through
`_filterObjects(valueList, acls, exceptionOnTruncate=False)` (so
`exceptionIfAllRemoved` keeps its default `True`); a scalar record argument
is replaced by the first filtered record, or deleted when the filtered list
is empty; everything else is kept as is. -/
def filterParams (username : String) (acls : List AclEntry) :
    List (String × ParamValue) →
    Except FilterError (List (String × ParamValue))
  | [] => Except.ok []
  | (key, ParamValue.objList []) :: rest =>
    match filterParams username acls rest with
    | Except.error e => Except.error e
    | Except.ok tail => Except.ok ((key, ParamValue.objList []) :: tail)
  | (key, ParamValue.objList (v :: vs)) :: rest =>
    match filterObjectsList username acls (v :: vs) false true with
    | Except.error e => Except.error e
    | Except.ok newList =>
      match filterParams username acls rest with
      | Except.error e => Except.error e
      | Except.ok tail =>
        Except.ok ((key, ParamValue.objList newList) :: tail)
  | (key, ParamValue.obj v) :: rest =>
    match filterObjectsList username acls [v] false true with
    | Except.error e => Except.error e
    | Except.ok newList =>
      match filterParams username acls rest with
      | Except.error e => Except.error e
      | Except.ok tail =>
        match newList with
        | [] => Except.ok tail
        | v2 :: _ => Except.ok ((key, ParamValue.obj v2) :: tail)
  | (key, ParamValue.other s) :: rest =>
    match filterParams username acls rest with
    | Except.error e => Except.error e
    | Except.ok tail => Except.ok ((key, ParamValue.other s) :: tail)

/-- Python truthiness of a call result (`if result:`): non-empty for lists,
dicts and strings, always true for `BaseObject` instances. -/
def resultTruthy : ParamValue → Bool
  | ParamValue.objList l => ¬ l.isEmpty
  | ParamValue.obj (DataRec.dictRec attrs) => ¬ attrs.isEmpty
  | ParamValue.obj (DataRec.typedRec _ _) => true
  | ParamValue.other s => ¬ s.isEmpty

/-- `_filterResult`: a truthy record-like result is passed to
`_filterObjects(result, acls, exceptionOnTruncate=False,
exceptionIfAllRemoved=False)` keeping its list/scalar shape; anything else
is returned unchanged. -/
def filterResult (username : String) (acls : List AclEntry)
    (result : ParamValue) : Except FilterError ParamValue :=
  if resultTruthy result then
    match result with
    | ParamValue.objList l =>
      match filterObjectsList username acls l false false with
      | Except.error e => Except.error e
      | Except.ok newList => Except.ok (ParamValue.objList newList)
    | ParamValue.obj r =>
      match filterObjectsScalar username acls r false false with
      | Except.error e => Except.error e
      | Except.ok r2 => Except.ok (ParamValue.obj r2)
    | ParamValue.other s => Except.ok (ParamValue.other s)
  else Except.ok result

/-- `str()` of the exceptions `_filterParams` can raise, as interpolated into
the wrapping `BackendPermissionDeniedError` message
(`OpsiError.__str__` prefixes the short description). -/
def filterErrorStr : FilterError → String
  | FilterError.permissionDenied msg =>
    if msg = "" then "Backend permission denied error"
    else "Backend permission denied error: " ++ msg
  | FilterError.indexError => "list index out of range"

/-- What `_executeMethodProtected` does before forwarding the call: proceed
unfiltered on a full grant, raise on a denial, and on a partial grant rewrite
the arguments, raising `No allowed param supplied` (wrapped like every
filtering error into `Access to method ... denied ...`) when the rewritten
argument set is empty. -/
inductive CallPreOutcome where
  | proceedFull (kwargs : List (String × ParamValue))
  | proceedFiltered (kwargs : List (String × ParamValue)) (acls : List AclEntry)
  | raised (e : FilterError)
deriving DecidableEq

/-- The pre-call phase of `_executeMethodProtected`. -/
def executeMethodProtectedPre (u : UserStore) (rules : RuleSet)
    (methodName : String) (kwargs : List (String × ParamValue)) :
    CallPreOutcome :=
  match methodAccessDecision u rules methodName with
  | AccessDecision.fullAccess => CallPreOutcome.proceedFull kwargs
  | AccessDecision.deniedAccess msg =>
    CallPreOutcome.raised (FilterError.permissionDenied msg)
  | AccessDecision.filteredAccess acls =>
    let wrapped : FilterError → CallPreOutcome := fun e =>
      CallPreOutcome.raised (FilterError.permissionDenied
        (deniedMessage methodName u.username ++ ": " ++ filterErrorStr e))
    match filterParams u.username acls kwargs with
    | Except.error e => wrapped e
    | Except.ok newKwargs =>
      if newKwargs.isEmpty then
        wrapped (FilterError.permissionDenied "No allowed param supplied")
      else CallPreOutcome.proceedFiltered newKwargs acls

/-- The OPSI exception kinds the opsi-hostkey branch of `authenticate` can
produce. -/
inductive AuthError where
  | backendAuthenticationError (msg : String)
  | backendMissingDataError (msg : String)
deriving DecidableEq

/-- `str()` of an OPSI exception: `OpsiError.__str__` prefixes the class's
short description to the message. -/
def authErrorStr : AuthError → String
  | AuthError.backendAuthenticationError msg =>
    if msg = "" then "Backend authentication error"
    else "Backend authentication error: " ++ msg
  | AuthError.backendMissingDataError msg =>
    if msg = "" then "Backend missing data error"
    else "Backend missing data error: " ++ msg

/-- `str.lower()` (ASCII case folding, structurally recursive so that it
computes by reduction). -/
def lowerChar (c : Char) : Char :=
  if c.isUpper then Char.ofNat (c.toNat + 32) else c

/-- Lowercasing of a username, `self.user_store.username.lower()`. -/
def strLower (s : String) : String :=
  String.mk (s.toList.map lowerChar)

/-- Python `None`-or-empty truthiness test on an optional string
(`if not self.user_store.host.opsiHostKey`). -/
def optStrFalsy : Option String → Bool
  | none => true
  | some s => s.isEmpty

/-- The `auth_type == "opsi-hostkey"` body inside the `try` block of
`authenticate`: lowercase the username, look the host up through the
object-lookup collaborator, raise `BackendMissingDataError` when it is
missing or has no stored key, raise `BackendAuthenticationError` when the
supplied password differs from the stored key, and on success mark the
store authenticated, admin iff the host is a depot server, and not
read-only. The collaborator `hostGetObjects` models
`self._context.host_getObjects(id=...)`; message interpolations that quote
the backend object are omitted. -/
def authenticateHostKeyBody (hostGetObjects : String → List Host)
    (store : UserStore) : UserStore × Option AuthError :=
  let store := { store with username := strLower store.username }
  match hostGetObjects store.username with
  | [] =>
    (store, some (AuthError.backendMissingDataError
      ("Host " ++ store.username ++ " not found in backend")))
  | host :: _ =>
    let store := { store with host := some host }
    if optStrFalsy host.opsiHostKey then
      (store, some (AuthError.backendMissingDataError
        ("OpsiHostKey not found for host " ++ store.username)))
    else if store.password ≠ host.opsiHostKey.getD "" then
      (store, some (AuthError.backendAuthenticationError
        ("OpsiHostKey authentication failed for host " ++ host.id ++
          ": wrong key")))
    else
      ({ store with
          authenticated := true
          isAdmin := isOpsiDepotserver { store with host := some host } []
          isReadOnly := false }, none)

/-- `authenticate` for the opsi-hostkey auth type: reset the store, reject
missing credentials, run the host-key body, and re-wrap every exception
escaping the `try` block into `BackendAuthenticationError(str(err))`. -/
def authenticateHostKey (hostGetObjects : String → List Host)
    (store0 : UserStore) (username password : String) :
    UserStore × Option AuthError :=
  let store := { store0 with
    authenticated := false
    username := username
    password := password }
  if store.username = "" then
    (store, some (AuthError.backendAuthenticationError "No username specified"))
  else if store.password = "" then
    (store, some (AuthError.backendAuthenticationError "No password specified"))
  else
    match authenticateHostKeyBody hostGetObjects store with
    | (store1, none) => (store1, none)
    | (store1, some err) =>
      (store1, some (AuthError.backendAuthenticationError (authErrorStr err)))

/-- Split a string at the first occurrence of a character
(`str.split(c, 1)` when the character occurs, `none` otherwise). -/
def splitFirstAux (c : Char) : List Char → Option (List Char × List Char)
  | [] => none
  | x :: xs =>
    if x = c then some ([], xs)
    else
      match splitFirstAux c xs with
      | none => none
      | some (l, r) => some (x :: l, r)

/-- String form of `splitFirstAux`. -/
def splitFirst (s : String) (c : Char) : Option (String × String) :=
  match splitFirstAux c s.toList with
  | none => none
  | some (l, r) => some (String.mk l, String.mk r)

/-- `str.lstrip()`: drop leading whitespace. -/
def lstrip (s : String) : String :=
  String.mk (s.toList.dropWhile Char.isWhitespace)

/-- `str.strip()`: drop surrounding whitespace (structurally recursive so
that it computes by reduction). -/
def pyStrip (s : String) : String :=
  String.mk (((s.toList.dropWhile Char.isWhitespace).reverse.dropWhile
    Char.isWhitespace).reverse)

/-- `str.split(c)` on a character list: Python `split` semantics
(`''.split(c) = ['']`, separators produce empty fields). -/
def splitCharList (c : Char) : List Char → List (List Char)
  | [] => [[]]
  | x :: xs =>
    let r := splitCharList c xs
    if x = c then [] :: r
    else
      match r with
      | [] => [[x]]
      | h :: t => (x :: h) :: t

/-- `str.split(c)`. -/
def splitStr (s : String) (c : Char) : List String :=
  (splitCharList c s.toList).map String.mk

/-- `value.startswith('!')`. -/
def startsWithBang (s : String) : Bool :=
  match s.toList with
  | '!' :: _ => true
  | _ => false

/-- The acl type keywords accepted by `BackendACLFile.parse`. -/
def aclTypeOfString : String → Option AclType
  | "all" => some AclType.all
  | "self" => some AclType.self_
  | "opsi_depotserver" => some AclType.opsi_depotserver
  | "opsi_client" => some AclType.opsi_client
  | "sys_group" => some AclType.sys_group
  | "sys_user" => some AclType.sys_user
  | _ => none

/-- The mutable state of the character loop of `BackendACLFile.parse` over
an entry's parameter string: `inAclTypeParamValues`, `aclTypeParam`,
`aclTypeParamValues` (most recent element first), and the `allowAttributes`,
`denyAttributes` and `ids` lists accumulated into the entry. -/
structure ParamScanState where
  inValues : Bool
  param : String
  valuesRev : List String
  allow : List String
  deny : List String
  ids : List String
deriving DecidableEq

/-- `aclTypeParamValues[-1] += c`. -/
def appendToHead (l : List String) (c : Char) : List String :=
  match l with
  | [] => [String.singleton c]
  | v :: vs => v.push c :: vs

/-- One iteration of the character loop of `BackendACLFile.parse`:
track parenthesis state, accumulate the current parameter token or value,
and on a comma or at the last character flush the token into the entry
(attribute constraints for `attributes(...)`, ids for the id-taking types). -/
def procChar (aclType : AclType) (aclTypeParams : String)
    (st : ParamScanState) (c : Char) (isLast : Bool) :
    Except String ParamScanState := do
  let badMsg := "Bad formatted acl type params " ++ aclTypeParams
  let st ←
    if c = '(' then
      if st.inValues then Except.error badMsg
      else Except.ok { st with inValues := true }
    else if c = ')' then
      if ¬ st.inValues ∨ st.param = "" then Except.error badMsg
      else Except.ok { st with inValues := false }
    else if c ≠ ',' ∨ isLast then
      if st.inValues then Except.ok { st with valuesRev := appendToHead st.valuesRev c }
      else Except.ok { st with param := st.param.push c }
    else Except.ok st
  if c = ',' ∨ isLast then
    if st.inValues then
      if isLast then Except.error badMsg
      else Except.ok { st with valuesRev := "" :: st.valuesRev }
    else
      let param := pyStrip st.param
      let tmp := (st.valuesRev.reverse.map pyStrip).filter fun t => ¬ t.isEmpty
      if param = "attributes" then
        let st := tmp.foldl (fun s v =>
          if startsWithBang v then
            { s with deny := s.deny ++ [pyStrip (v.drop 1)] }
          else { s with allow := s.allow ++ [v] }) st
        Except.ok { st with param := "", valuesRev := [""] }
      else if aclType = AclType.sys_group ∨ aclType = AclType.sys_user ∨
          aclType = AclType.opsi_depotserver ∨ aclType = AclType.opsi_client then
        Except.ok
          { st with
            ids := st.ids ++ [pyStrip param]
            param := ""
            valuesRev := [""] }
      else
        Except.error ("Unhandled acl type param " ++ param ++ " for acl type")
  else Except.ok st

/-- The character loop of `BackendACLFile.parse` over the parameter string. -/
def scanParams (aclType : AclType) (aclTypeParams : String) :
    List Char → ParamScanState → Except String ParamScanState
  | [], st => Except.ok st
  | c :: rest, st => do
    let st1 ← procChar aclType aclTypeParams st c rest.isEmpty
    scanParams aclType aclTypeParams rest st1

/-- One `;`-separated entry of an acl line, as parsed by
`BackendACLFile.parse`: split off the parenthesised parameter string,
reject unknown types, reject `sys_group`/`sys_user` with an empty parameter
string, and otherwise run the character loop. -/
def parseACLEntry (entryStr : String) : Except String AclEntry := do
  let entryStr := pyStrip entryStr
  let (aclTypeStr, aclTypeParams) ←
    match splitFirst entryStr '(' with
    | none => Except.ok (entryStr, "")
    | some (before, after) =>
      if after = "" then Except.error "string index out of range"
      else if after.toList.getLast? ≠ some ')' then
        Except.error ("Bad formatted acl entry " ++ entryStr ++
          ": trailing parenthesis missing")
      else Except.ok (pyStrip before, after.dropRight 1)
  match aclTypeOfString aclTypeStr with
  | none => Except.error ("Unhandled acl type: " ++ aclTypeStr)
  | some aclType =>
    if aclTypeParams = "" then
      if aclType = AclType.sys_group ∨ aclType = AclType.sys_user then
        Except.error ("Bad formatted acl type " ++ aclTypeStr ++ ": no params given")
      else
        Except.ok { type := aclType, ids := [], allowAttributes := [], denyAttributes := [] }
    else do
      let st ← scanParams aclType aclTypeParams aclTypeParams.toList
        { inValues := false, param := "", valuesRev := [""],
          allow := [], deny := [], ids := [] }
      Except.ok
        { type := aclType, ids := st.ids,
          allowAttributes := st.allow, denyAttributes := st.deny }

/-- One logical line of the acl file: the line regex
`([^:]+)+ \s* : \s* (\S.*)` yields the method part before the first colon
and the entry list after it, split on `;`. -/
def parseACLLine (line : String) : Except String (String × List AclEntry) :=
  match splitFirst line ':' with
  | none => Except.error ("Found bad formatted line " ++ line ++ " in acl file")
  | some (left, right) =>
    if left = "" ∨ lstrip right = "" then
      Except.error ("Found bad formatted line " ++ line ++ " in acl file")
    else do
      let method := pyStrip left
      let entries ← (splitStr (lstrip right) ';').mapM parseACLEntry
      Except.ok (method, entries)

/-! ## Shared lemmas -/

lemma contains_iff {l : List String} {a : String} :
    l.contains a = true ↔ a ∈ l := by
  simp [List.contains, List.elem_iff]

lemma mem_allowedAttributesFor {username : String} {acls : List AclEntry}
    {objHash : ObjHash} {k : String} :
    k ∈ allowedAttributesFor username acls objHash ↔
      ∃ e ∈ acls, k ∈ entryAllowedAttributes username e objHash := by
  simp [allowedAttributesFor, List.mem_flatten]

/-- The `runEntries` loop computes: the contributing entries are exactly the
predicate-true entries of the scanned prefix, and the final grant is the
(attribute-adjusted) grant of the last of them, the initial value when there
is none. -/
lemma runEntries_spec (u : UserStore) (entries : List AclEntry) :
    ∀ g : RunningGrant,
      (runEntries u g entries).2
        = (scannedEntries u entries).filter (fun e => (entryGrant u e).isSome)
      ∧ (runEntries u g entries).1
        = ((scannedEntries u entries).filter
            (fun e => (entryGrant u e).isSome)).getLast?.elim g
            (fun e => (entryGrant u e).getD RunningGrant.notGranted) := by
  induction entries with
  | nil => intro g; simp [runEntries, scannedEntries]
  | cons e rest ih =>
    intro g
    rcases h : entryGrant u e with _ | x
    · have hs : scannedEntries u (e :: rest) = e :: scannedEntries u rest := by
        simp [scannedEntries, h]
      have hrun : runEntries u g (e :: rest) = runEntries u g rest := by
        simp [runEntries, h]
      rw [hrun, hs]
      have hfil : (e :: scannedEntries u rest).filter
            (fun e2 => (entryGrant u e2).isSome)
          = (scannedEntries u rest).filter
            (fun e2 => (entryGrant u e2).isSome) := by
        simp [List.filter_cons, h]
      rw [hfil]
      exact ih g
    · by_cases hx : x = RunningGrant.fullGrant
      · subst hx
        have hs : scannedEntries u (e :: rest) = [e] := by
          simp [scannedEntries, h]
        simp [runEntries, h, hs, List.filter_cons]
      · have hs : scannedEntries u (e :: rest) = e :: scannedEntries u rest := by
          simp [scannedEntries, h, hx]
        have hrun : runEntries u g (e :: rest)
            = ((runEntries u x rest).1, e :: (runEntries u x rest).2) := by
          simp [runEntries, h, hx]
        obtain ⟨ih1, ih2⟩ := ih x
        refine ⟨?_, ?_⟩
        · simp [hrun, hs, List.filter_cons, h, ih1]
        · rw [hrun, hs]
          simp only [List.filter_cons, h, Option.isSome_some, if_pos]
          rcases hL : (scannedEntries u rest).filter
              (fun e => (entryGrant u e).isSome) with _ | ⟨l0, L⟩
          · simp only [hL] at ih2
            simp [ih2, h]
          · obtain ⟨y, hy⟩ : ∃ y, (l0 :: L).getLast? = some y :=
              Option.isSome_iff_exists.mp (List.getLast?_isSome.mpr (by simp))
            simp only [hL, hy] at ih2
            simp [ih2, List.getLast?_cons_cons, hy]

/-- The scan really stops at the first entry granting `True`. -/
lemma scannedEntries_stops (u : UserStore) :
    ∀ pre : List AclEntry, ∀ e : AclEntry, ∀ post : List AclEntry,
      (∀ e2 ∈ pre, entryGrant u e2 ≠ some RunningGrant.fullGrant) →
      entryGrant u e = some RunningGrant.fullGrant →
      scannedEntries u (pre ++ e :: post) = pre ++ [e] := by
  intro pre
  induction pre with
  | nil => intro e post _ he; simp [scannedEntries, he]
  | cons p pre ih =>
    intro e post hpre he
    have hp : entryGrant u p ≠ some RunningGrant.fullGrant :=
      hpre p (by simp)
    have hrest := ih e post (fun e2 h2 => hpre e2 (by simp [h2])) he
    simp only [List.cons_append, scannedEntries, if_neg hp, List.append_eq,
      hrest]

/-! ## Claim C1 -/

/-- C1: in the winning pattern's entry list, the contributing-entries list
collects every predicate-true entry that the loop scans, the final grant
level is the grant of the last of them (`False`, i.e. denial, when none
contributes), and scanning stops at the first entry whose running grant
becomes `True` (Full). -/
theorem processEntries_last_matching_wins (u : UserStore)
    (entries : List AclEntry) :
    (processEntries u entries).2
        = (scannedEntries u entries).filter (fun e => (entryGrant u e).isSome)
    ∧ (processEntries u entries).1
        = ((scannedEntries u entries).filter
            (fun e => (entryGrant u e).isSome)).getLast?.elim
            RunningGrant.notGranted
            (fun e => (entryGrant u e).getD RunningGrant.notGranted)
    ∧ (∀ pre e post, entries = pre ++ e :: post →
        (∀ e2 ∈ pre, entryGrant u e2 ≠ some RunningGrant.fullGrant) →
        entryGrant u e = some RunningGrant.fullGrant →
        scannedEntries u entries = pre ++ [e]) := by
  obtain ⟨h1, h2⟩ := runEntries_spec u entries RunningGrant.notGranted
  refine ⟨h1, h2, ?_⟩
  intro pre e post hsplit hpre he
  rw [hsplit]
  exact scannedEntries_stops u pre e post hpre he

def uC1 : UserStore :=
  { username := "alice", password := "pw", userGroups := ["admins"],
    host := none, authenticated := true, isAdmin := false, isReadOnly := false }

def eC1self : AclEntry :=
  { type := AclType.self_, ids := [], allowAttributes := [],
    denyAttributes := ["opsiHostKey"] }

def eC1group : AclEntry :=
  { type := AclType.sys_group, ids := ["admins"], allowAttributes := [],
    denyAttributes := [] }

def eC1user : AclEntry :=
  { type := AclType.sys_user, ids := ["bob"], allowAttributes := [],
    denyAttributes := [] }

theorem processEntries_last_matching_wins_witness :
    scannedEntries uC1 [eC1self, eC1group, eC1user] = [eC1self] ++ [eC1group]
    ∧ (processEntries uC1 [eC1self, eC1group, eC1user]).1
        = RunningGrant.fullGrant
    ∧ (processEntries uC1 [eC1self, eC1group, eC1user]).2
        = [eC1self, eC1group] := by
  have h := processEntries_last_matching_wins uC1 [eC1self, eC1group, eC1user]
  refine ⟨h.2.2 [eC1self] eC1group [eC1user] rfl (by decide) (by decide),
    ?_, ?_⟩
  · rw [h.2.1]; decide
  · rw [h.1]; decide

/-! ## Claim C2 -/

lemma findMatchingAcl_skip (mname : String) :
    ∀ pre : RuleSet, (∀ q ∈ pre, q.1 mname = false) →
      ∀ rest : RuleSet,
        findMatchingAcl (pre ++ rest) mname = findMatchingAcl rest mname := by
  intro pre
  induction pre with
  | nil => intro _ rest; simp
  | cons q pre ih =>
    intro hpre rest
    have hq : q.1 mname = false := hpre q (by simp)
    obtain ⟨qp, qa⟩ := q
    simp only [List.cons_append, findMatchingAcl]
    rw [if_neg (by simp_all), show pre.append rest = pre ++ rest from rfl,
      ih (fun r hr => hpre r (by simp [hr])) rest]

/-- C2: only the first pattern (in file order) whose regex matches the
method name is consulted: the decision equals the decision of that
pattern's entry list, whatever comes after it; and when no pattern matches,
the call is denied with a `BackendPermissionDeniedError`. -/
theorem first_matching_pattern_only (u : UserStore) (mname : String)
    (pre : RuleSet) (p : MethodPattern) (acl : List AclEntry)
    (hpre : ∀ q ∈ pre, q.1 mname = false) :
    (p mname = true →
      ∀ post : RuleSet,
        methodAccessDecision u (pre ++ (p, acl) :: post) mname
          = aclDecision u mname acl)
    ∧ methodAccessDecision u pre mname
        = AccessDecision.deniedAccess (deniedMessage mname u.username) := by
  constructor
  · intro hp post
    have h := findMatchingAcl_skip mname pre hpre ((p, acl) :: post)
    simp only [methodAccessDecision, h, findMatchingAcl, hp, if_pos]
  · have h := findMatchingAcl_skip mname pre hpre []
    simp only [List.append_nil] at h
    simp [methodAccessDecision, h, findMatchingAcl]

def pC2a : MethodPattern := fun s => s = "host_getObjects"

def pC2b : MethodPattern := fun _ => true

theorem first_matching_pattern_only_witness :
    methodAccessDecision uC1 [(pC2a, [eC1group]), (pC2b, [eC1user])]
        "host_getObjects"
      = aclDecision uC1 "host_getObjects" [eC1group]
    ∧ methodAccessDecision uC1 [(pC2a, [eC1group])] "config_getObjects"
      = AccessDecision.deniedAccess
          (deniedMessage "config_getObjects" uC1.username) := by
  constructor
  · exact (first_matching_pattern_only uC1 "host_getObjects" [] pC2a [eC1group]
      (by simp)).1 (by decide) [(pC2b, [eC1user])]
  · exact (first_matching_pattern_only uC1 "config_getObjects"
      [(pC2a, [eC1group])] pC2b [] (by intro q hq; simp at hq; subst hq; decide)).2

/-! ## Claim C3 -/

def eC3empty : AclEntry :=
  { type := AclType.all, ids := [], allowAttributes := [],
    denyAttributes := [] }

def eC3allow : AclEntry :=
  { type := AclType.all, ids := [], allowAttributes := ["id"],
    denyAttributes := [] }

/-- C3 counterexample: an `all` entry whose `allowAttributes` and
`denyAttributes` keys are present but hold empty lists grants Full, because
`entry.get('denyAttributes') or entry.get('allowAttributes')` is false on
empty lists — the claim that an empty declared attribute set still forces a
Partial grant is refuted. -/
theorem empty_attr_lists_grant_full_cex :
    entryGrant uC1 eC3empty = some RunningGrant.fullGrant := by decide

/-- C3 (amended): an `all` entry with no attribute constraints always grants
Full; an entry with a non-empty allow or deny attribute list never grants
Full — whenever it contributes at all, its grant is `partial_attributes` —
while attribute lists that are present but empty do not force Partial. -/
theorem attr_entries_never_full (u : UserStore) (e : AclEntry) :
    (e.type = AclType.all → e.allowAttributes = [] → e.denyAttributes = [] →
      entryGrant u e = some RunningGrant.fullGrant)
    ∧ (¬ e.denyAttributes.isEmpty ∨ ¬ e.allowAttributes.isEmpty →
        ∀ g, entryGrant u e = some g → g = RunningGrant.attrGrant)
    ∧ (¬ e.denyAttributes.isEmpty ∨ ¬ e.allowAttributes.isEmpty →
        entryGrant u e ≠ some RunningGrant.fullGrant) := by
  have h2 : ¬ e.denyAttributes.isEmpty ∨ ¬ e.allowAttributes.isEmpty →
      ∀ g, entryGrant u e = some g → g = RunningGrant.attrGrant := by
    intro hattr g hg
    simp only [entryGrant] at hg
    split at hg
    · exact absurd hg (by simp)
    · rw [if_pos hattr] at hg
      exact (Option.some.injEq _ _ ▸ hg).symm
  refine ⟨?_, h2, ?_⟩
  · intro ht ha hd
    simp [entryGrant, ht, ha, hd]
  · intro hattr hfull
    exact absurd (h2 hattr RunningGrant.fullGrant hfull) (by decide)

theorem attr_entries_never_full_witness :
    entryGrant uC1 eC3empty = some RunningGrant.fullGrant
    ∧ entryGrant uC1 eC3allow ≠ some RunningGrant.fullGrant := by
  exact ⟨(attr_entries_never_full uC1 eC3empty).1 rfl rfl rfl,
    (attr_entries_never_full uC1 eC3allow).2.2 (by decide)⟩

/-! ## Claim C4 -/

def eC4self : AclEntry :=
  { type := AclType.self_, ids := [], allowAttributes := ["description"],
    denyAttributes := [] }

/-- C4 counterexample: with the (degenerate) empty username, a record whose
identity attribute is the empty string has its identity attribute equal to
the principal's username, yet the `self` entry contributes nothing: the
`if not objectId` truthiness test skips falsy identity values, so the
claimed iff fails. -/
theorem self_contribution_empty_username_cex :
    objectIdOf identityAttributes [("id", "")] = some ""
    ∧ nonSelfContribution eC4self [("id", "")] = ["description"]
    ∧ entryAllowedAttributes "" eC4self [("id", "")] = [] := by decide

/-- C4 (amended): a `self` entry contributes its attributes iff the record's
identity attribute — the first present among id, objectId, hostId, clientId,
depotId, serverId, in that order — is non-empty and equals the principal's
username; and a record without any identity-shaped attribute is always
dropped when every contributing entry is a `self` entry. -/
theorem self_entry_contribution (username : String) (e : AclEntry)
    (objHash : ObjHash) :
    (e.type = AclType.self_ →
      entryAllowedAttributes username e objHash
        = if objectIdOf identityAttributes objHash = some username ∧
              username ≠ "" then
            nonSelfContribution e objHash
          else [])
    ∧ (∀ acls : List AclEntry, (∀ a ∈ acls, a.type = AclType.self_) →
        objectIdOf identityAttributes objHash = none →
        ∀ ex : Bool, ∀ r : DataRec, r.attrs = objHash →
          filterOneObject username acls ex r = Except.ok none) := by
  constructor
  · intro hself
    rcases hid : objectIdOf identityAttributes objHash with _ | v
    · simp [entryAllowedAttributes, hself, hid]
    · simp [entryAllowedAttributes, hself, hid]
      split_ifs with h1 h2 h3
      · exfalso
        obtain ⟨rfl, hu⟩ := h2
        rcases h1 with h1 | h1
        · exact hu h1
        · exact h1 rfl
      · rfl
      · rfl
      · exfalso
        push_neg at h1
        obtain ⟨hne, rfl⟩ := h1
        exact h3 ⟨rfl, hne⟩
  · intro acls hall hid ex r hr
    have hempty : allowedAttributesFor username acls objHash = [] := by
      have hone : ∀ a ∈ acls, entryAllowedAttributes username a objHash = [] := by
        intro a ha
        simp [entryAllowedAttributes, hall a ha, hid]
      rw [allowedAttributesFor, List.flatten_eq_nil_iff]
      intro x hx
      rw [List.mem_map] at hx
      obtain ⟨a, ha, rfl⟩ := hx
      exact hone a ha
    simp [filterOneObject, hr, hempty]

theorem self_entry_contribution_witness :
    entryAllowedAttributes "alice" eC4self [("id", "alice"), ("note", "n")]
      = nonSelfContribution eC4self [("id", "alice"), ("note", "n")]
    ∧ filterOneObject "alice" [eC4self] false
        (DataRec.dictRec [("note", "n")]) = Except.ok none := by
  constructor
  · have h := (self_entry_contribution "alice" eC4self
      [("id", "alice"), ("note", "n")]).1 rfl
    rw [h, if_pos ⟨by decide, by decide⟩]
  · exact (self_entry_contribution "alice" eC4self [("note", "n")]).2
      [eC4self] (by intro a ha; simp at ha; subst ha; rfl) (by decide)
      false (DataRec.dictRec [("note", "n")]) rfl

/-! ## Claim C5 -/

/-- The per-record filter in non-strict mode, which never raises. -/
def nonStrictFilter (username : String) (acls : List AclEntry)
    (r : DataRec) : Option DataRec :=
  match filterOneObject username acls false r with
  | Except.ok o => o
  | Except.error _ => none

lemma filterOneObject_false_ok (username : String) (acls : List AclEntry)
    (r : DataRec) :
    filterOneObject username acls false r
      = Except.ok (nonStrictFilter username acls r) := by
  unfold nonStrictFilter filterOneObject
  by_cases h : (allowedAttributesFor username acls r.attrs).isEmpty
  · simp [h]
  · simp [h]

lemma filterObjectsLoop_false (username : String) (acls : List AclEntry) :
    ∀ objs : List DataRec,
      filterObjectsLoop username acls false objs
        = Except.ok (objs.filterMap (nonStrictFilter username acls)) := by
  intro objs
  induction objs with
  | nil => simp [filterObjectsLoop]
  | cons r rest ih =>
    simp only [filterObjectsLoop, filterOneObject_false_ok, ih,
      List.filterMap_cons]
    cases h : nonStrictFilter username acls r <;> simp [h]

lemma filterObjectsList_false_eq (username : String) (acls : List AclEntry)
    (objs : List DataRec) (b : Bool) :
    filterObjectsList username acls objs false b
      = (if (objs.filterMap (nonStrictFilter username acls)).length <
              objs.length ∧
            (objs.filterMap (nonStrictFilter username acls)).isEmpty ∧ b then
          Except.error (FilterError.permissionDenied "Access denied")
        else Except.ok (objs.filterMap (nonStrictFilter username acls))) := by
  simp only [filterObjectsList, filterObjectsLoop_false]

/-- An argument value that object filtering empties completely. -/
def argEmptied (username : String) (acls : List AclEntry) : ParamValue → Prop
  | ParamValue.objList vs =>
    vs ≠ [] ∧ vs.filterMap (nonStrictFilter username acls) = []
  | ParamValue.obj v => nonStrictFilter username acls v = none
  | ParamValue.other _ => False

lemma filterParams_keys (username : String) (acls : List AclEntry) :
    ∀ params res, filterParams username acls params = Except.ok res →
      res.map Prod.fst = params.map Prod.fst := by
  intro params
  induction params with
  | nil =>
    intro res hres
    simp only [filterParams] at hres
    cases hres
    rfl
  | cons kv rest ih =>
    intro res hres
    obtain ⟨key, v⟩ := kv
    cases v with
    | objList vs =>
      cases vs with
      | nil =>
        rcases htail : filterParams username acls rest with e | tail
        · simp only [filterParams, htail] at hres
          cases hres
        · simp only [filterParams, htail] at hres
          cases hres
          simp [ih tail htail]
      | cons x xs =>
        rcases hlist : filterObjectsList username acls (x :: xs) false true
            with e | newList
        · simp only [filterParams, hlist] at hres
          cases hres
        · rcases htail : filterParams username acls rest with e | tail
          · simp only [filterParams, hlist, htail] at hres
            cases hres
          · simp only [filterParams, hlist, htail] at hres
            cases hres
            simp [ih tail htail]
    | obj v =>
      rcases hlist : filterObjectsList username acls [v] false true
          with e | newList
      · simp only [filterParams, hlist] at hres
        cases hres
      · rcases htail : filterParams username acls rest with e | tail
        · simp only [filterParams, hlist, htail] at hres
          cases hres
        · cases newList with
          | nil =>
            exfalso
            rw [filterObjectsList_false_eq] at hlist
            rcases hmap : List.filterMap (nonStrictFilter username acls) [v]
                with _ | ⟨y, ys⟩
            · rw [if_pos (by simp [hmap])] at hlist
              cases hlist
            · rw [hmap] at hlist
              split at hlist <;> cases hlist
          | cons y ys =>
            simp only [filterParams, hlist, htail] at hres
            cases hres
            simp [ih tail htail]
    | other s =>
      rcases htail : filterParams username acls rest with e | tail
      · simp only [filterParams, htail] at hres
        cases hres
      · simp only [filterParams, htail] at hres
        cases hres
        simp [ih tail htail]

lemma filterParams_emptied_errors (username : String) (acls : List AclEntry) :
    ∀ params : List (String × ParamValue),
      (∃ kv ∈ params, argEmptied username acls kv.2) →
      filterParams username acls params
        = Except.error (FilterError.permissionDenied "Access denied") := by
  intro params
  induction params with
  | nil => intro hex; simp at hex
  | cons kv rest ih =>
    intro hex
    obtain ⟨key, v⟩ := kv
    obtain ⟨kv0, hmem, hbad⟩ := hex
    rcases List.mem_cons.mp hmem with heq | hmem2
    · subst heq
      cases v with
      | objList vs =>
        cases vs with
        | nil => exact absurd rfl hbad.1
        | cons x xs =>
          have hlist : filterObjectsList username acls (x :: xs) false true
              = Except.error (FilterError.permissionDenied "Access denied") := by
            rw [filterObjectsList_false_eq,
              if_pos (by simp [hbad.2, Nat.succ_pos])]
          simp [filterParams, hlist]
      | obj v =>
        simp only [argEmptied] at hbad
        have hlist : filterObjectsList username acls [v] false true
            = Except.error (FilterError.permissionDenied "Access denied") := by
          rw [filterObjectsList_false_eq,
            if_pos (by simp [List.filterMap_cons, hbad])]
        simp [filterParams, hlist]
      | other s => exact absurd hbad (by simp [argEmptied])
    · have herr := ih ⟨kv0, hmem2, hbad⟩
      cases v with
      | objList vs =>
        cases vs with
        | nil => simp [filterParams, herr]
        | cons x xs =>
          rcases hlist : filterObjectsList username acls (x :: xs) false true
              with e | newList
          · have he : e = FilterError.permissionDenied "Access denied" := by
              rw [filterObjectsList_false_eq] at hlist
              split at hlist
              · cases hlist; rfl
              · cases hlist
            subst he
            simp [filterParams, hlist]
          · simp [filterParams, hlist, herr]
      | obj v =>
        rcases hlist : filterObjectsList username acls [v] false true
            with e | newList
        · have he : e = FilterError.permissionDenied "Access denied" := by
            rw [filterObjectsList_false_eq] at hlist
            split at hlist
            · cases hlist; rfl
            · cases hlist
          subst he
          simp [filterParams, hlist]
        · simp [filterParams, hlist, herr]
      | other s => simp [filterParams, herr]

def rC5a : DataRec := DataRec.dictRec [("id", "bob"), ("note", "n")]

def rC5b : DataRec := DataRec.dictRec [("id", "alice"), ("note", "n")]

def eC5self : AclEntry :=
  { type := AclType.self_, ids := [], allowAttributes := [],
    denyAttributes := [] }

def paramsC5 : List (String × ParamValue) :=
  [("a", ParamValue.objList [rC5a]), ("b", ParamValue.objList [rC5b])]

/-- C5 counterexample: one argument (`a`) is emptied by filtering while the
other (`b`) survives; the claim predicts that `a` is dropped and the call
proceeds with `b`, but `_filterParams` calls `_filterObjects` with the
default `exceptionIfAllRemoved=True`, so the whole call fails with
`Access denied` instead. -/
theorem filterParams_emptied_arg_cex :
    filterParams "alice" [eC5self] paramsC5
      = Except.error (FilterError.permissionDenied "Access denied")
    ∧ filterObjectsList "alice" [eC5self] [rC5b] false true
      = Except.ok [rC5b] := by
  constructor <;> rfl

/-- C5 (amended): parameter filtering never drops an argument key on
success; instead, any record argument whose records are all removed by
filtering makes the whole call fail with a `BackendPermissionDeniedError`
(`Access denied`); and when the argument set is empty after processing —
which under a partial grant only happens when it was empty to begin with —
the call fails with the wrapped `No allowed param supplied` error. -/
theorem filterParams_emptied_arg_denies (username : String)
    (acls : List AclEntry) (params : List (String × ParamValue)) :
    (∀ res, filterParams username acls params = Except.ok res →
      res.map Prod.fst = params.map Prod.fst)
    ∧ ((∃ kv ∈ params, argEmptied username acls kv.2) →
      filterParams username acls params
        = Except.error (FilterError.permissionDenied "Access denied"))
    ∧ (∀ (u : UserStore) (rules : RuleSet) (mname : String)
        (acls2 : List AclEntry),
        methodAccessDecision u rules mname
          = AccessDecision.filteredAccess acls2 →
        executeMethodProtectedPre u rules mname []
          = CallPreOutcome.raised (FilterError.permissionDenied
              (deniedMessage mname u.username ++
                ": Backend permission denied error: No allowed param supplied"))) := by
  refine ⟨fun res => filterParams_keys username acls params res,
    filterParams_emptied_errors username acls params, ?_⟩
  intro u rules mname acls2 hdec
  simp [executeMethodProtectedPre, hdec, filterParams, filterErrorStr,
    String.append_assoc]

theorem filterParams_emptied_arg_denies_witness :
    (List.map Prod.fst [("b", ParamValue.objList [rC5b])]
        = List.map Prod.fst [("b", ParamValue.objList [rC5b])])
    ∧ filterParams "alice" [eC5self] [("a", ParamValue.objList [rC5a])]
        = Except.error (FilterError.permissionDenied "Access denied")
    ∧ executeMethodProtectedPre uC1 [(pC2b, [eC1self])] "host_getObjects" []
        = CallPreOutcome.raised (FilterError.permissionDenied
            (deniedMessage "host_getObjects" uC1.username ++
              ": Backend permission denied error: No allowed param supplied")) := by
  have h := filterParams_emptied_arg_denies "alice" [eC5self]
    [("a", ParamValue.objList [rC5a])]
  refine ⟨?_, ?_, ?_⟩
  · have hok : filterParams "alice" [eC5self] [("b", ParamValue.objList [rC5b])]
        = Except.ok [("b", ParamValue.objList [rC5b])] := by rfl
    have := (filterParams_emptied_arg_denies "alice" [eC5self]
      [("b", ParamValue.objList [rC5b])]).1 _ hok
    exact this
  · exact h.2.1 ⟨("a", ParamValue.objList [rC5a]), by simp,
      ⟨by simp, by rfl⟩⟩
  · exact h.2.2 uC1 [(pC2b, [eC1self])] "host_getObjects" [eC1self] rfl

/-! ## Claim C6 -/

/-- C6: non-strict object filtering never removes a typed record's kind tag
or mandatory constructor attributes: a typed record that survives into the
filter's output keeps its class and every `type`/mandatory attribute it
carried, whatever allowed-attribute set the contributing entries produced. -/
theorem typed_filter_preserves_mandatory (username : String)
    (acls : List AclEntry) (objs out : List DataRec) (cls : ObjClass)
    (attrs : ObjHash) (r2 : DataRec)
    (hloop : filterObjectsLoop username acls false objs = Except.ok out)
    (hmem : DataRec.typedRec cls attrs ∈ objs)
    (hone : filterOneObject username acls false (DataRec.typedRec cls attrs)
      = Except.ok (some r2)) :
    r2 ∈ out ∧ ∃ attrs2, r2 = DataRec.typedRec cls attrs2
      ∧ ∀ k v, (k, v) ∈ attrs → (k = "type" ∨ k ∈ cls.mandatory) →
          (k, v) ∈ attrs2 := by
  have hns : nonStrictFilter username acls (DataRec.typedRec cls attrs)
      = some r2 := by
    have h := filterOneObject_false_ok username acls
      (DataRec.typedRec cls attrs)
    rw [hone] at h
    exact (Except.ok.inj h).symm
  have hout : out = objs.filterMap (nonStrictFilter username acls) := by
    rw [filterObjectsLoop_false] at hloop
    exact (Except.ok.inj hloop).symm
  refine ⟨hout ▸ List.mem_filterMap.mpr ⟨_, hmem, hns⟩, ?_⟩
  simp only [filterOneObject, DataRec.attrs, DataRec.isDict,
    DataRec.mandatoryOf, DataRec.withAttrs] at hone
  by_cases hemp : (allowedAttributesFor username acls attrs).isEmpty
  · simp [hemp] at hone
  · simp only [hemp, Bool.false_eq_true, if_false, if_neg,
      Bool.not_eq_true] at hone
    simp at hone
    refine ⟨_, hone.symm, ?_⟩
    intro k v hkv hk
    refine List.mem_filter.mpr ⟨hkv, ?_⟩
    rcases hk with hk | hk
    · simp [hk]
    · simp [hk]

def clsC6 : ObjClass := { name := "OpsiClient", mandatory := ["id"] }

def attrsC6 : ObjHash :=
  [("id", "c1"), ("type", "OpsiClient"), ("opsiHostKey", "k")]

def rC6 : DataRec := DataRec.typedRec clsC6 attrsC6

def aclsC6 : List AclEntry :=
  [{ type := AclType.self_, ids := [], allowAttributes := ["note"],
     denyAttributes := [] }]

theorem typed_filter_preserves_mandatory_witness :
    DataRec.typedRec clsC6 [("id", "c1"), ("type", "OpsiClient")]
      ∈ [DataRec.typedRec clsC6 [("id", "c1"), ("type", "OpsiClient")]]
    ∧ ("id", "c1") ∈ [("id", "c1"), ("type", "OpsiClient")] := by
  obtain ⟨hmem, attrs2, heq, hpres⟩ :=
    typed_filter_preserves_mandatory "c1" aclsC6 [rC6]
      [DataRec.typedRec clsC6 [("id", "c1"), ("type", "OpsiClient")]]
      clsC6 attrsC6
      (DataRec.typedRec clsC6 [("id", "c1"), ("type", "OpsiClient")])
      rfl (by simp [rC6]) rfl
  have hattrs : [("id", "c1"), ("type", "OpsiClient")] = attrs2 := by
    injection heq
  refine ⟨hmem, ?_⟩
  rw [hattrs]
  exact hpres "id" "c1" (by simp [attrsC6]) (Or.inr (by simp [clsC6]))

/-! ## Claim C7 -/

lemma withAttrs_attrs (r : DataRec) (h : ObjHash) :
    (r.withAttrs h).attrs = h := by cases r <;> rfl

lemma withAttrs_isDict (r : DataRec) (h : ObjHash) :
    (r.withAttrs h).isDict = r.isDict := by cases r <;> rfl

lemma withAttrs_mandatoryOf (r : DataRec) (h : ObjHash) :
    (r.withAttrs h).mandatoryOf = r.mandatoryOf := by cases r <;> rfl

lemma withAttrs_self (r : DataRec) : r.withAttrs r.attrs = r := by
  cases r <;> rfl

/-- Closed form of the non-strict per-record filter. -/
lemma filterOneObject_false_eq2 (username : String) (acls : List AclEntry)
    (r : DataRec) :
    filterOneObject username acls false r
      = (if (allowedAttributesFor username acls r.attrs).isEmpty then
          Except.ok none
        else
          Except.ok (some (r.withAttrs (r.attrs.filter fun kv =>
            (if r.isDict then allowedAttributesFor username acls r.attrs
             else "type" ::
               (r.mandatoryOf ++
                 allowedAttributesFor username acls r.attrs)).contains
              kv.1)))) := by
  unfold filterOneObject
  by_cases hemp : (allowedAttributesFor username acls r.attrs).isEmpty
  · simp [hemp]
  · simp [hemp]

/-- A non-`self` entry with a non-empty allow list contributes exactly that
list, whatever the record looks like. -/
lemma contribution_allow (username : String) (a : AclEntry) (H : ObjHash)
    (ha : ¬ a.type = AclType.self_) (hal : ¬ a.allowAttributes.isEmpty) :
    entryAllowedAttributes username a H = a.allowAttributes := by
  simp [entryAllowedAttributes, ha, nonSelfContribution, hal]

/-- A non-`self` entry with an empty allow list only ever contributes keys
of the record. -/
lemma contribution_subset_keys (username : String) (a : AclEntry)
    (H : ObjHash) (k : String) (ha : ¬ a.type = AclType.self_)
    (hal : a.allowAttributes.isEmpty)
    (hk : k ∈ entryAllowedAttributes username a H) :
    k ∈ H.map Prod.fst := by
  rw [entryAllowedAttributes, if_neg ha] at hk
  unfold nonSelfContribution at hk
  rw [if_neg (by simp [hal])] at hk
  by_cases hd : a.denyAttributes.isEmpty
  · rw [if_neg (by simp [hd])] at hk
    exact hk
  · rw [if_pos (by simp [hd])] at hk
    exact (List.mem_filter.mp hk).1

/-- Monotonicity of a non-`self` entry's contribution: a contributed key
that is still a key of the filtered record is contributed again. -/
lemma nonSelf_contribution_mono (username : String) (a : AclEntry)
    (H H2 : ObjHash) (k : String) (ha : ¬ a.type = AclType.self_)
    (hk : k ∈ entryAllowedAttributes username a H)
    (hk2 : k ∈ H2.map Prod.fst) :
    k ∈ entryAllowedAttributes username a H2 := by
  rw [entryAllowedAttributes, if_neg ha] at hk ⊢
  unfold nonSelfContribution at hk ⊢
  by_cases h1 : a.allowAttributes.isEmpty
  · rw [if_neg (by simp [h1])] at hk ⊢
    by_cases h2 : a.denyAttributes.isEmpty
    · rw [if_neg (by simp [h2])] at hk ⊢
      exact hk2
    · rw [if_pos (by simp [h2])] at hk ⊢
      exact List.mem_filter.mpr ⟨hk2, (List.mem_filter.mp hk).2⟩
  · rw [if_pos (by simp [h1])] at hk ⊢
    exact hk

/-- Monotonicity of the accumulated allowed-attribute set over a `self`-free
entry list. -/
lemma allowed_mono (username : String) (acls : List AclEntry)
    (H H2 : ObjHash) (k : String)
    (hself : ∀ a ∈ acls, ¬ a.type = AclType.self_)
    (hk : k ∈ allowedAttributesFor username acls H)
    (hk2 : k ∈ H2.map Prod.fst) :
    k ∈ allowedAttributesFor username acls H2 := by
  obtain ⟨a, ha, hka⟩ := mem_allowedAttributesFor.mp hk
  exact mem_allowedAttributesFor.mpr
    ⟨a, ha, nonSelf_contribution_mono username a H H2 k (hself a ha) hka hk2⟩

def eC7 : AclEntry :=
  { type := AclType.self_, ids := [], allowAttributes := ["note"],
    denyAttributes := [] }

def rC7 : DataRec := DataRec.dictRec [("id", "alice"), ("note", "n")]

def rC7f : DataRec := DataRec.dictRec [("note", "n")]

/-- C7 counterexample: filtering is not idempotent in general. Under the
`self` entry `self(attributes(note))` and principal `alice`, the record
`{id: alice, note: n}` filters to `{note: n}`; filtering that output again
drops it entirely, because its identity attribute is gone and the `self`
entry no longer matches. -/
theorem filterObjects_not_idempotent_cex :
    filterOneObject "alice" [eC7] false rC7 = Except.ok (some rC7f)
    ∧ filterOneObject "alice" [eC7] false rC7f = Except.ok none := by
  constructor <;> rfl

/-- C7 (amended): object filtering is idempotent for every contributing
entry list that contains no `self` entry: a record already produced by the
non-strict filter passes through a second application unchanged. (With
`self` entries a second application can drop the record, as the
counterexample shows.) -/
theorem filterObjects_idempotent_no_self (username : String)
    (acls : List AclEntry) (r r2 : DataRec)
    (hself : ∀ a ∈ acls, ¬ a.type = AclType.self_)
    (h : filterOneObject username acls false r = Except.ok (some r2)) :
    filterOneObject username acls false r2 = Except.ok (some r2) := by
  rw [filterOneObject_false_eq2] at h
  by_cases hemp : (allowedAttributesFor username acls r.attrs).isEmpty
  · rw [if_pos hemp] at h
    exact absurd (Except.ok.inj h) (by simp)
  · rw [if_neg hemp] at h
    have hr2 : r2 = r.withAttrs (r.attrs.filter fun kv =>
        (if r.isDict then allowedAttributesFor username acls r.attrs
         else "type" ::
           (r.mandatoryOf ++
             allowedAttributesFor username acls r.attrs)).contains kv.1) :=
      (Option.some.inj (Except.ok.inj h)).symm
    have hattrs2 : r2.attrs = r.attrs.filter fun kv =>
        (if r.isDict then allowedAttributesFor username acls r.attrs
         else "type" ::
           (r.mandatoryOf ++
             allowedAttributesFor username acls r.attrs)).contains kv.1 := by
      rw [hr2, withAttrs_attrs]
    -- every key of the filtered record was allowed in the first pass
    have hkey1 : ∀ kv ∈ r2.attrs,
        kv.1 ∈ (if r.isDict then allowedAttributesFor username acls r.attrs
          else "type" ::
            (r.mandatoryOf ++ allowedAttributesFor username acls r.attrs)) := by
      intro kv hkv
      rw [hattrs2] at hkv
      exact contains_iff.mp (List.mem_filter.mp hkv).2
    have hkeymem : ∀ kv ∈ r2.attrs, kv.1 ∈ r2.attrs.map Prod.fst := by
      intro kv hkv
      exact List.mem_map.mpr ⟨kv, hkv, rfl⟩
    -- transfer of base-allowed keys to the second pass
    have htransfer : ∀ kv ∈ r2.attrs,
        kv.1 ∈ allowedAttributesFor username acls r.attrs →
        kv.1 ∈ allowedAttributesFor username acls r2.attrs := by
      intro kv hkv hk
      exact allowed_mono username acls r.attrs r2.attrs kv.1 hself hk
        (hkeymem kv hkv)
    -- the second-pass allowed set is non-empty
    have hne2 : ¬ (allowedAttributesFor username acls r2.attrs).isEmpty := by
      obtain ⟨k0, hk0⟩ := List.exists_mem_of_ne_nil _
        (by simpa [List.isEmpty_iff] using hemp)
      obtain ⟨a, ha, hka⟩ := mem_allowedAttributesFor.mp hk0
      by_cases hal : a.allowAttributes.isEmpty
      · -- the contributed key is a key of `r` and survives the filter
        have hkkey : k0 ∈ r.attrs.map Prod.fst :=
          contribution_subset_keys username a r.attrs k0 (hself a ha) hal hka
        obtain ⟨kv, hkvmem, hkveq⟩ := List.mem_map.mp hkkey
        have hin1 : k0 ∈ (if r.isDict then
            allowedAttributesFor username acls r.attrs
          else "type" ::
            (r.mandatoryOf ++ allowedAttributesFor username acls r.attrs)) := by
          by_cases hd : r.isDict
          · rw [if_pos hd]; exact hk0
          · rw [if_neg hd]
            exact List.mem_cons_of_mem _ (List.mem_append_right _ hk0)
        have hkv2 : kv ∈ r2.attrs := by
          rw [hattrs2]
          exact List.mem_filter.mpr ⟨hkvmem, contains_iff.mpr (hkveq ▸ hin1)⟩
        have : k0 ∈ allowedAttributesFor username acls r2.attrs :=
          hkveq ▸ htransfer kv hkv2 (hkveq ▸ hk0)
        simp [List.isEmpty_iff]
        exact List.ne_nil_of_mem this
      · -- an allow-list entry contributes its list again
        have hnil : a.allowAttributes ≠ [] := by
          simpa [List.isEmpty_iff] using hal
        have : a.allowAttributes.head hnil ∈
            allowedAttributesFor username acls r2.attrs := by
          refine mem_allowedAttributesFor.mpr ⟨a, ha, ?_⟩
          rw [contribution_allow username a r2.attrs (hself a ha) hal]
          exact List.head_mem hnil
        simp [List.isEmpty_iff]
        exact List.ne_nil_of_mem this
    -- every key of the filtered record is allowed again in the second pass
    have hall2 : ∀ kv ∈ r2.attrs,
        ((if r2.isDict then allowedAttributesFor username acls r2.attrs
          else "type" ::
            (r2.mandatoryOf ++
              allowedAttributesFor username acls r2.attrs)).contains
          kv.1) = true := by
      intro kv hkv
      refine contains_iff.mpr ?_
      have hd2 : r2.isDict = r.isDict := by rw [hr2, withAttrs_isDict]
      have hm2 : r2.mandatoryOf = r.mandatoryOf := by
        rw [hr2, withAttrs_mandatoryOf]
      have h1 := hkey1 kv hkv
      by_cases hd : r.isDict
      · rw [if_pos hd] at h1
        rw [if_pos (hd2 ▸ hd)]
        exact htransfer kv hkv h1
      · rw [if_neg hd] at h1
        rw [if_neg (by rw [hd2]; exact hd), hm2]
        rcases List.mem_cons.mp h1 with h1 | h1
        · exact h1 ▸ List.mem_cons_self _ _
        · rcases List.mem_append.mp h1 with h1 | h1
          · exact List.mem_cons_of_mem _ (List.mem_append_left _ h1)
          · exact List.mem_cons_of_mem _
              (List.mem_append_right _ (htransfer kv hkv h1))
    rw [filterOneObject_false_eq2, if_neg hne2,
      List.filter_eq_self.mpr hall2, withAttrs_self]

theorem filterObjects_idempotent_no_self_witness :
    filterOneObject "alice"
        [{ type := AclType.sys_user, ids := ["alice"],
           allowAttributes := [], denyAttributes := ["secret"] }] false
        (DataRec.dictRec [("id", "alice"), ("note", "n")])
      = Except.ok (some (DataRec.dictRec [("id", "alice"), ("note", "n")])) := by
  have h := filterObjects_idempotent_no_self "alice"
    [{ type := AclType.sys_user, ids := ["alice"],
       allowAttributes := [], denyAttributes := ["secret"] }]
    (DataRec.dictRec [("id", "alice"), ("note", "n"), ("secret", "s")])
    (DataRec.dictRec [("id", "alice"), ("note", "n")])
    (by intro a ha; simp at ha; subst ha; simp) (by rfl)
  exact h

/-! ## Claim C8 -/

def ctxC8 : String → List Host := fun _ => []

def stC8 : UserStore :=
  { username := "", password := "", userGroups := [], host := none,
    authenticated := false, isAdmin := false, isReadOnly := false }

/-- C8 counterexample: when the host is not found, the surfaced error is a
`BackendAuthenticationError` (the `except Exception` handler at the end of
`authenticate` re-wraps every failure), not a `BackendMissingDataError` —
the MissingData diagnosis survives only in the message text, so the failure
is not distinct from a plain authentication failure at the exception level. -/
theorem hostkey_missing_data_wrapped_cex :
    (authenticateHostKey ctxC8 stC8 "c1.domain.tld" "secret").2
      = some (AuthError.backendAuthenticationError
          "Backend missing data error: Host c1.domain.tld not found in backend") := by
  rfl

/-- C8 (amended): host-key authentication looks the host up by the
lowercased username; a missing host or missing stored key raises a
`BackendMissingDataError` internally, which the method's final handler
re-wraps into a `BackendAuthenticationError` carrying the MissingData
message (so the surfaced exception type no longer distinguishes the two); a
password differing from the stored key yields an authentication error with
`authenticated` still false; on success `authenticated` is true, the host is
bound, `isAdmin` holds iff the host is a depot server, and `isReadOnly` is
false. -/
theorem authenticateHostKey_spec (ctx : String → List Host)
    (store0 : UserStore) (username password : String) (host : Host)
    (hs : List Host) (k : String) (hu : username ≠ "") (hp : password ≠ "") :
    (ctx (strLower username) = [] →
      authenticateHostKey ctx store0 username password
        = ({ store0 with
              authenticated := false
              username := strLower username
              password := password },
           some (AuthError.backendAuthenticationError (authErrorStr
             (AuthError.backendMissingDataError
               ("Host " ++ strLower username ++ " not found in backend"))))))
    ∧ (ctx (strLower username) = host :: hs → optStrFalsy host.opsiHostKey →
      authenticateHostKey ctx store0 username password
        = ({ store0 with
              authenticated := false
              username := strLower username
              password := password
              host := some host },
           some (AuthError.backendAuthenticationError (authErrorStr
             (AuthError.backendMissingDataError
               ("OpsiHostKey not found for host " ++ strLower username))))))
    ∧ (ctx (strLower username) = host :: hs → host.opsiHostKey = some k →
        k ≠ "" → password ≠ k →
      (authenticateHostKey ctx store0 username password).2
        = some (AuthError.backendAuthenticationError (authErrorStr
            (AuthError.backendAuthenticationError
              ("OpsiHostKey authentication failed for host " ++ host.id ++
                ": wrong key"))))
      ∧ (authenticateHostKey ctx store0 username password).1.authenticated
          = false)
    ∧ (ctx (strLower username) = host :: hs → host.opsiHostKey = some k →
        k ≠ "" → password = k →
      (authenticateHostKey ctx store0 username password).2 = none
      ∧ (authenticateHostKey ctx store0 username password).1.authenticated
          = true
      ∧ (authenticateHostKey ctx store0 username password).1.host = some host
      ∧ ((authenticateHostKey ctx store0 username password).1.isAdmin = true
          ↔ host.kind = HostKind.opsiDepotserver)
      ∧ (authenticateHostKey ctx store0 username password).1.isReadOnly
          = false
      ∧ (authenticateHostKey ctx store0 username password).1.username
          = strLower username) := by
  have hkey : ∀ k2 : String, k2 ≠ "" → optStrFalsy (some k2) = false := by
    intro k2 hk2
    simp only [optStrFalsy, ← Bool.not_eq_true, String.isEmpty_iff]
    exact hk2
  refine ⟨?_, ?_, ?_, ?_⟩
  · intro hctx
    simp [authenticateHostKey, authenticateHostKeyBody, hu, hp, hctx]
  · intro hctx hfalsy
    simp [authenticateHostKey, authenticateHostKeyBody, hu, hp, hctx, hfalsy]
  · intro hctx hhk hk hne
    simp [authenticateHostKey, authenticateHostKeyBody, hu, hp, hctx, hhk,
      hkey k hk, hne]
  · intro hctx hhk hk heq
    subst heq
    constructor
    · simp [authenticateHostKey, authenticateHostKeyBody, hu, hp, hctx, hhk,
        hkey password hp]
    · by_cases hd : host.kind = HostKind.opsiDepotserver <;>
        simp [authenticateHostKey, authenticateHostKeyBody, hu, hp, hctx,
          hhk, hkey password hp, isOpsiDepotserver, hd]

def hC8 : Host :=
  { id := "c1.domain.tld", opsiHostKey := some "abcdef",
    kind := HostKind.opsiClient }

def ctxC8b : String → List Host :=
  fun s => if s = "c1.domain.tld" then [hC8] else []

theorem authenticateHostKey_spec_witness :
    ((authenticateHostKey ctxC8b stC8 "C1.Domain.Tld" "wrong").2
        = some (AuthError.backendAuthenticationError (authErrorStr
            (AuthError.backendAuthenticationError
              ("OpsiHostKey authentication failed for host c1.domain.tld: wrong key"))))
      ∧ (authenticateHostKey ctxC8b stC8 "C1.Domain.Tld" "wrong").1.authenticated
          = false)
    ∧ (authenticateHostKey ctxC8b stC8 "C1.Domain.Tld" "abcdef").2 = none
    ∧ (authenticateHostKey ctxC8b stC8 "C1.Domain.Tld" "abcdef").1.authenticated
        = true := by
  have h1 := (authenticateHostKey_spec ctxC8b stC8 "C1.Domain.Tld" "wrong"
    hC8 [] "abcdef" (by decide) (by decide)).2.2.1 (by rfl) rfl (by decide)
    (by decide)
  have h2 := (authenticateHostKey_spec ctxC8b stC8 "C1.Domain.Tld" "abcdef"
    hC8 [] "abcdef" (by decide) (by decide)).2.2.2 (by rfl) rfl (by decide)
    rfl
  exact ⟨⟨h1.1, h1.2⟩, h2.1, h2.2.1⟩

/-! ## Claim C9 -/

/-- C9 counterexample: a `sys_group` entry whose only parameter is an
`attributes(...)` constraint parses successfully with an empty ids list —
the parser only rejects `sys_group`/`sys_user` when the whole parameter
string is empty, so it can produce such an entry with no id at all. -/
theorem sys_group_attributes_only_parses_cex :
    parseACLLine "method: sys_group(attributes(opsiHostKey))"
      = Except.ok ("method",
          [{ type := AclType.sys_group, ids := [],
             allowAttributes := ["opsiHostKey"], denyAttributes := [] }]) := by
  rfl

/-- C9 (amended): the parser rejects a `sys_group`/`sys_user` entry exactly
when its parameter string is empty (`sys_group` or `sys_group()`), at entry
level and at line level; an entry whose parameters consist only of attribute
constraints is accepted with an empty ids set. -/
theorem sys_group_no_params_rejected (t : String)
    (ht : t = "sys_group" ∨ t = "sys_user") :
    parseACLEntry t
      = Except.error ("Bad formatted acl type " ++ t ++ ": no params given")
    ∧ parseACLEntry (t ++ "()")
      = Except.error ("Bad formatted acl type " ++ t ++ ": no params given")
    ∧ parseACLLine ("m: " ++ t)
      = Except.error ("Bad formatted acl type " ++ t ++ ": no params given") := by
  rcases ht with rfl | rfl <;> exact ⟨rfl, rfl, rfl⟩

theorem sys_group_no_params_rejected_witness :
    parseACLEntry "sys_group"
      = Except.error "Bad formatted acl type sys_group: no params given"
    ∧ parseACLEntry "sys_user()"
      = Except.error "Bad formatted acl type sys_user: no params given" := by
  exact ⟨(sys_group_no_params_rejected "sys_group" (Or.inl rfl)).1,
    (sys_group_no_params_rejected "sys_user" (Or.inr rfl)).2.1⟩

/-! ## Claim C10 -/

/-- C10: when the backend returns a single (non-list) truthy record and the
contributing entries produce an empty allowed-attribute set for it, result
filtering drops the record and `newObjects[0]` raises a raw `IndexError`
(the all-removed check is disabled in `_filterResult`), instead of returning
a value or a wrapped PermissionDenied error. -/
theorem filterResult_scalar_dropped_indexError (username : String)
    (acls : List AclEntry) (r : DataRec)
    (htruthy : resultTruthy (ParamValue.obj r) = true)
    (hempty : allowedAttributesFor username acls r.attrs = []) :
    filterResult username acls (ParamValue.obj r)
      = Except.error FilterError.indexError
    ∧ filterObjectsLoop username acls false [r] = Except.ok [] := by
  have hone : filterOneObject username acls false r = Except.ok none := by
    rw [filterOneObject_false_eq2, if_pos (by simp [hempty])]
  have hloop : filterObjectsLoop username acls false [r] = Except.ok [] := by
    simp [filterObjectsLoop, hone]
  refine ⟨?_, hloop⟩
  simp [filterResult, htruthy, filterObjectsScalar, hloop]

theorem filterResult_scalar_dropped_indexError_witness :
    resultTruthy (ParamValue.obj (DataRec.dictRec [("x", "1")])) = true
    ∧ filterResult "u" [eC5self] (ParamValue.obj (DataRec.dictRec [("x", "1")]))
        = Except.error FilterError.indexError := by
  exact ⟨by rfl, (filterResult_scalar_dropped_indexError "u" [eC5self]
    (DataRec.dictRec [("x", "1")]) (by rfl) (by rfl)).1⟩

end PyOpsi
